import Mathlib

/-!
Shallow embedding of the meeting-notes summarizer (Next.js + TypeScript).

Embedded source files:
* `src/lib/ai.ts` — `summarizeNotes`, `parseStructuredSummary`,
  `extractActionItems`, `extractKeyPoints`, `generateProbingQuestions`,
  `detectMeetingType`, `generateDemoOutput`, `shouldUseDemoMode`,
  `getReadableErrorMessage`;
* the summarize API route (`POST`), which validates the request body before
  calling `summarizeNotes`;
* the persistence layer — `saveNote` / `keepLast10Meetings` / `getNotes`
  against the `meetings` and `meeting_outputs` tables.

JavaScript strings are modelled as Lean `String`s (lists of characters);
`String.prototype.length` becomes the character count. Regular expressions
used by the source are compiled by hand into character-list matchers that
follow the JS engine's lazy/greedy backtracking on those concrete patterns.
The remote LLM call and the JSON-repair library are external effects: they
enter the model as explicit parameters (`Except`-valued response, an
abstract `parseJson` function).
-/

namespace Prodai

/-! ### JS character classes and string helpers -/

/-- JS regex `\s` (ECMA-262 WhiteSpace ∪ LineTerminator), also the set
removed by `String.prototype.trim`. -/
def jsWhitespace (c : Char) : Bool :=
  decide (c.toNat = 32 ∨ c.toNat = 9 ∨ c.toNat = 10 ∨ c.toNat = 11 ∨
    c.toNat = 12 ∨ c.toNat = 13 ∨ c.toNat = 0xa0 ∨ c.toNat = 0x1680 ∨
    (0x2000 ≤ c.toNat ∧ c.toNat ≤ 0x200a) ∨ c.toNat = 0x2028 ∨
    c.toNat = 0x2029 ∨ c.toNat = 0x202f ∨ c.toNat = 0x205f ∨
    c.toNat = 0x3000 ∨ c.toNat = 0xfeff)

/-- JS regex `.` (without the `s` flag): any char except a line terminator. -/
def dotChar (c : Char) : Bool :=
  decide (c.toNat ≠ 10 ∧ c.toNat ≠ 13 ∧ c.toNat ≠ 0x2028 ∧ c.toNat ≠ 0x2029)

/-- `String.prototype.trim`. -/
def jsTrim (s : String) : String :=
  String.mk (((s.toList.dropWhile jsWhitespace).reverse.dropWhile jsWhitespace).reverse)

/-- `String.prototype.toLowerCase` (ASCII range, which covers every pattern
the source matches case-insensitively). -/
def lowerStr (s : String) : String :=
  String.mk (s.toList.map Char.toLower)

/-- `needle` occurs as a contiguous run inside `hay`. -/
def listContainsSub (needle : List Char) : List Char → Bool
  | [] => needle.isEmpty
  | c :: rest => needle.isPrefixOf (c :: rest) || listContainsSub needle rest

/-- `haystack.includes(needle)`. -/
def strContains (haystack needle : String) : Bool :=
  listContainsSub needle.toList haystack.toList

/-- Case-insensitive "the pattern `kw` matches at the start of `cs`". -/
def ciIsPrefix (kw : List Char) (cs : List Char) : Bool :=
  List.isPrefixOf (kw.map Char.toLower) (cs.map Char.toLower)

/-- `String.prototype.split` on single-character separators (the pieces
between delimiter characters, empty pieces kept, as in JS). -/
def splitCharList (p : Char → Bool) : List Char → List (List Char)
  | [] => [[]]
  | c :: rest =>
    let r := splitCharList p rest
    if p c then [] :: r
    else
      match r with
      | [] => [[c]]
      | h :: t => (c :: h) :: t

/-- `s.split(sep)` for a character-class separator. -/
def strSplit (s : String) (p : Char → Bool) : List String :=
  (splitCharList p s.toList).map String.mk

/-- `text.split('\n').map(l => l.trim()).filter(l => l.length > 0)`. -/
def splitLinesTrimmed (text : String) : List String :=
  ((strSplit text (fun c => c = '\n')).map jsTrim).filter (fun l => l != "")

/-! ### Regex matchers for `extractActionItems`

The source applies five patterns per line:
`/^(.+?)\s+(?:to|will|should|needs? to|has to)\s+(.+)$/i`,
`/^(.+?)\s+→\s+(.+)$/`, `/^(.+?)\s+assigned to\s+(.+)$/i`,
`/^action:\s*(.+)$/i`, `/^todo:\s*(.+)$/i`.
The first three share the shape "lazy group, `\s+`, keyword alternation,
`\s+`, greedy group"; the last two the shape "literal label, `\s*`, greedy
group". -/

/-- Match `\s+(.+)$` against `cs2` (the text following a keyword): greedy
whitespace, then a non-empty dot-run to the end of the line, with the JS
engine's backtracking when the greedy run consumes everything. -/
def sepTail (cs2 : List Char) : Option (List Char) :=
  let w2 := cs2.takeWhile jsWhitespace
  let r2 := cs2.dropWhile jsWhitespace
  if w2.isEmpty then none
  else if r2.isEmpty then
    match cs2.getLast? with
    | some c => if 2 ≤ cs2.length && dotChar c then some [c] else none
    | none => none
  else if r2.all dotChar then some r2 else none

/-- Try each keyword of the alternation, in source order, at the head of
`r1`; on success match `\s+(.+)$` on the remainder. -/
def findKeywordTail (kws : List (List Char)) (r1 : List Char) : Option (List Char) :=
  match kws with
  | [] => none
  | kw :: rest =>
    if ciIsPrefix kw r1 then
      match sepTail (r1.drop kw.length) with
      | some g2 => some g2
      | none => findKeywordTail rest r1
    else findKeywordTail rest r1

/-- Match `\s+(?:kws)\s+(.+)$` against the text after the lazy group. -/
def matchAfterG1 (kws : List (List Char)) (cs : List Char) : Option (List Char) :=
  let w1 := cs.takeWhile jsWhitespace
  let r1 := cs.dropWhile jsWhitespace
  if w1.isEmpty then none else findKeywordTail kws r1

/-- Grow the lazy first group one character at a time (shortest match
first, as the JS engine does for `(.+?)`). -/
def matchTwoAux (kws : List (List Char)) (g1rev : List Char) (rest : List Char) :
    Option (List Char × List Char) :=
  match rest with
  | [] => none
  | c :: rest' =>
    if dotChar c then
      match matchAfterG1 kws rest' with
      | some g2 => some ((c :: g1rev).reverse, g2)
      | none => matchTwoAux kws (c :: g1rev) rest'
    else none

/-- `line.match(/^(.+?)\s+(?:kws)\s+(.+)$/)`: the two captured groups. -/
def matchTwoGroup (kws : List (List Char)) (line : String) : Option (String × String) :=
  match matchTwoAux kws [] line.toList with
  | some (g1, g2) => some (String.mk g1, String.mk g2)
  | none => none

/-- `line.match(/^label\s*(.+)$/i)`: the single captured group. -/
def matchLabeled (label : List Char) (line : String) : Option String :=
  let cs := line.toList
  if ciIsPrefix label cs then
    let cs2 := cs.drop label.length
    let r := cs2.dropWhile jsWhitespace
    if r.isEmpty then
      match cs2.getLast? with
      | some c => if dotChar c then some (String.mk [c]) else none
      | none => none
    else if r.all dotChar then some (String.mk r) else none
  else none

/-- Keyword alternation of the first action pattern, in source order
(`to|will|should|needs? to|has to`, with the optional `s` tried greedily). -/
def p1kws : List (List Char) :=
  ["to".toList, "will".toList, "should".toList,
   "needs to".toList, "need to".toList, "has to".toList]

def p2kws : List (List Char) := [['→']]

def p3kws : List (List Char) := ["assigned to".toList]

/-- One two-group pattern applied to a line, pushing `owner → task` when
both trimmed groups are non-empty (JS truthiness on the trimmed strings). -/
def applyTwoGroup (kws : List (List Char)) (line : String) (acc : List String) :
    List String :=
  match matchTwoGroup kws line with
  | some (g1, g2) =>
    let owner := jsTrim g1
    let task := jsTrim g2
    if owner != "" && task != "" then acc ++ [owner ++ " → " ++ task] else acc
  | none => acc

/-- One labeled pattern (`action:` / `todo:`) applied to a line. -/
def applyLabeled (label : List Char) (line : String) (acc : List String) :
    List String :=
  match matchLabeled label line with
  | some g1 =>
    let task := jsTrim g1
    if task != "" then acc ++ [task] else acc
  | none => acc

/-- The per-line body of the `extractActionItems` loop: all five patterns in
source order, then the keyword catch-all guarded by
`!actionItems.some(item => item.includes(line))`. -/
def processActionLine (acc : List String) (line : String) : List String :=
  let acc1 := applyTwoGroup p1kws line acc
  let acc2 := applyTwoGroup p2kws line acc1
  let acc3 := applyTwoGroup p3kws line acc2
  let acc4 := applyLabeled "action:".toList line acc3
  let acc5 := applyLabeled "todo:".toList line acc4
  let lower := lowerStr line
  if (strContains lower "todo" || strContains lower "action" ||
      strContains lower "need to" || strContains lower "should") &&
     !(acc5.any (fun item => strContains item line)) then
    acc5 ++ [line]
  else acc5

/-- `extractActionItems` from `src/lib/ai.ts`. -/
def extractActionItems (text : String) : List String :=
  ((splitLinesTrimmed text).foldl processActionLine []).take 5

/-! ### `generateProbingQuestions` and `extractKeyPoints` -/

/-- The five keyword-gap checks of `generateProbingQuestions`, in source
order, before the generic-question fallback. -/
def gapQuestions (text : String) : List String :=
  let lowerText := lowerStr text
  (if !(strContains lowerText "goal") && !(strContains lowerText "objective") then
     ["What were the specific goals for this meeting?"] else []) ++
  (if !(strContains lowerText "deadline") && !(strContains lowerText "due date") then
     ["What are the deadlines for the action items?"] else []) ++
  (if !(strContains lowerText "budget") && !(strContains lowerText "cost") then
     ["Are there any budget considerations for these decisions?"] else []) ++
  (if !(strContains lowerText "risk") && !(strContains lowerText "concern") then
     ["What are the potential risks or concerns?"] else []) ++
  (if !(strContains lowerText "stakeholder") && !(strContains lowerText "team") then
     ["Who are the key stakeholders involved?"] else [])

/-- `generateProbingQuestions` from `src/lib/ai.ts`. -/
def generateProbingQuestions (text : String) : List String :=
  let questions := gapQuestions text
  (if questions.isEmpty then
     ["What are the next steps after this meeting?",
      "Who will be responsible for following up?"]
   else questions).take 3

def importantKeywords : List String :=
  ["decided", "agreed", "discussed", "reviewed", "planned", "scheduled",
   "completed", "blocked", "issue", "problem", "solution", "next", "action",
   "deadline", "goal", "objective"]

/-- `extractKeyPoints` from `src/lib/ai.ts`: split on `[.!?]`, keep
sentences whose trimmed length exceeds 20, keep those containing an
important keyword (lower-cased), push the trimmed sentence, cap at 5. -/
def extractKeyPoints (text : String) : List String :=
  let sentences := (strSplit text (fun c => c = '.' || c = '!' || c = '?')).filter
    (fun s => 20 < (jsTrim s).length)
  ((sentences.filter
      (fun s => importantKeywords.any (fun k => strContains (lowerStr s) k))).map
    jsTrim).take 5

/-! ### The summarize API route -/

inductive MeetingType
  | sprintReview
  | productDecision
  deriving DecidableEq

/-- The `input` field of the parsed request body: absent (or JSON `null`),
present but not a string, or a string. -/
inductive InputField
  | missing
  | nonString
  | str (s : String)
  deriving DecidableEq

/-- What the route does after validation: answer a client error directly,
or call `summarizeNotes input (meetingType ?? 'sprint-review')`. -/
inductive RouteResponse
  | clientError (status : Nat) (message : String)
  | summarize (input : String) (meetingType : MeetingType)
  deriving DecidableEq

/-- `POST` of the summarize API route: the validation ladder in source
order (`!input || typeof input !== 'string'`, then `input.length < 10`,
then `input.length > 1000`), falling through to `summarizeNotes`. -/
def POST (input : InputField) (meetingType : Option MeetingType) : RouteResponse :=
  match input with
  | .missing => .clientError 400 "Invalid input. Please provide meeting notes as a string."
  | .nonString => .clientError 400 "Invalid input. Please provide meeting notes as a string."
  | .str s =>
    if s = "" then
      .clientError 400 "Invalid input. Please provide meeting notes as a string."
    else if s.length < 10 then
      .clientError 400 "Meeting notes must be at least 10 characters long."
    else if s.length > 1000 then
      .clientError 400 "Meeting notes cannot exceed 1000 characters."
    else
      .summarize s (meetingType.getD .sprintReview)

/-- A concrete 1001-character input, for the C1 witness. -/
def longInput : String := String.mk (List.replicate 1001 'a')

/-- A concrete input that covers all five keyword gaps, for the C9
witness. -/
def probingAllCovered : String := "goal deadline budget risk team"

/-! ### Data model of `src/lib/ai.ts` (the exported interfaces) -/

/-- The `'high' | 'medium' | 'low'` union used for priority, impact and
probability. -/
inductive Level
  | high
  | medium
  | low
  deriving DecidableEq

inductive Trend
  | up
  | down
  | stable
  deriving DecidableEq

/-- `'follow-up' | 'escalation' | 'review' | 'decision'`. -/
inductive ReminderType
  | followUp
  | escalation
  | review
  | decision
  deriving DecidableEq

/-- `string | number` (the type of `SprintMetric.value`). -/
inductive StrNum
  | str (s : String)
  | num (n : Int)
  deriving DecidableEq

structure ActionItem where
  task : String
  owner : String
  deadline : Option String := none
  priority : Level
  dependencies : Option (List String) := none
  successCriteria : Option String := none
  deriving DecidableEq

structure SprintMetric where
  name : String
  value : StrNum
  trend : Option Trend := none
  description : Option String := none
  deriving DecidableEq

structure Decision where
  decision : String
  rationale : String
  impact : Level
  owner : Option String := none
  deadline : Option String := none
  deriving DecidableEq

inductive ResourceType
  | team
  | timeline
  | budget
  | technology
  deriving DecidableEq

structure ResourceRequirement where
  type : ResourceType
  description : String
  quantity : Option String := none
  timeline : Option String := none
  owner : Option String := none
  deriving DecidableEq

structure RiskItem where
  risk : String
  impact : Level
  probability : Level
  mitigation : String
  owner : Option String := none
  deriving DecidableEq

structure FollowUpReminder where
  action : String
  dueDate : String
  owner : String
  type : ReminderType
  deriving DecidableEq

structure QualityAreas where
  preparation : Nat
  participation : Nat
  decisionMaking : Nat
  actionClarity : Nat
  followThrough : Nat
  deriving DecidableEq

structure MeetingQualityMetrics where
  overallScore : Nat
  areas : QualityAreas
  recommendations : List String
  deriving DecidableEq

structure SprintReviewSections where
  deliverablesCompleted : List String
  sprintMetrics : List SprintMetric
  blockersResolved : List String
  upcomingRoadmapItems : List String
  stakeholderUpdates : List String
  deriving DecidableEq

structure ProductDecisionSections where
  decisionsMade : List Decision
  strategicRationale : List String
  technicalConsiderations : List String
  successCriteria : List String
  resourceRequirements : List ResourceRequirement
  deriving DecidableEq

/-- `SummaryOutput`: the report returned by `summarizeNotes`. Optional
(`?:`) fields are `Option`s. -/
structure SummaryOutput where
  summaryPoints : List String
  actionItemsOrNextSteps : List ActionItem
  openQuestions : List String
  meetingType : MeetingType
  sprintReviewSections : Option SprintReviewSections := none
  productDecisionSections : Option ProductDecisionSections := none
  riskAssessment : Option (List RiskItem) := none
  followUpReminders : Option (List FollowUpReminder) := none
  meetingQuality : Option MeetingQualityMetrics := none
  deriving DecidableEq

/-! ### `parseStructuredSummary` -/

/-- The relevant fields of the object produced by
`JSON.parse(jsonrepair(candidate))`, each `none` when absent or `null`
(the `|| default` in the source replaces exactly those). The repair/parse
step itself is an external library, so it enters the model as an abstract
`parseJson : String → Option RawParsed` argument; `none` is a parse throw
(caught by the source) and `some` a successfully parsed object. -/
structure RawParsed where
  summaryPoints : Option (List String) := none
  actionItemsOrNextSteps : Option (List ActionItem) := none
  openQuestions : Option (List String) := none
  sprintReviewSections : Option SprintReviewSections := none
  productDecisionSections : Option ProductDecisionSections := none
  riskAssessment : Option (List RiskItem) := none
  followUpReminders : Option (List FollowUpReminder) := none
  meetingQuality : Option MeetingQualityMetrics := none
  deriving DecidableEq

/-- The record `parseStructuredSummary` returns. -/
structure ParsedSections where
  summaryPoints : List String
  actionItemsOrNextSteps : List ActionItem
  openQuestions : List String
  sprintReviewSections : Option SprintReviewSections
  productDecisionSections : Option ProductDecisionSections
  riskAssessment : List RiskItem
  followUpReminders : List FollowUpReminder
  meetingQuality : Option MeetingQualityMetrics
  deriving DecidableEq

def openBrace : Char := Char.ofNat 123

def closeBrace : Char := Char.ofNat 125

/-- `summaryText.match(/\x7b[\s\S]*\x7d/)`: the substring from the first
opening brace to the last closing brace, provided a closing brace follows
the first opening one (lazy start of the scan, greedy `[\s\S]*`). -/
def extractJsonCandidate (s : String) : Option String :=
  let cs := s.toList
  let rest := cs.dropWhile (fun c => c != openBrace)
  let tailAfter := rest.drop 1
  let k := (tailAfter.reverse.dropWhile (fun c => c != closeBrace)).length
  if rest.isEmpty then none
  else if k = 0 then none
  else some (String.mk (rest.take (k + 1)))

/-- The three legacy section keys tracked by `currentSection`. -/
inductive SectionKey
  | summaryPoints
  | actionItemsOrNextSteps
  | openQuestions
  deriving DecidableEq

/-- `line.match(/^#+\s*label/i)` for the header labels. -/
def matchHashHeader (label : List Char) (line : String) : Bool :=
  let cs := line.toList
  let hashes := cs.takeWhile (fun c => c = '#')
  let rest := (cs.dropWhile (fun c => c = '#')).dropWhile jsWhitespace
  !hashes.isEmpty && ciIsPrefix label rest

/-- The header-detection ladder of the legacy parsing loop. -/
def sectionOfHeader (line : String) : Option SectionKey :=
  if matchHashHeader "summary points".toList line ||
     matchHashHeader "key discussion points".toList line then
    some .summaryPoints
  else if matchHashHeader "action items".toList line ||
     matchHashHeader "next steps".toList line then
    some .actionItemsOrNextSteps
  else if matchHashHeader "open questions".toList line then
    some .openQuestions
  else none

/-- `line.replace(/^[-•*]\s+/, '').trim()` when the bullet pattern
matches. -/
def bulletContent (line : String) : Option String :=
  match line.toList with
  | [] => none
  | c :: rest =>
    if c = '-' || c = '•' || c = '*' then
      let w := rest.takeWhile jsWhitespace
      if w.isEmpty then none
      else some (jsTrim (String.mk (rest.dropWhile jsWhitespace)))
    else none

/-- The three mutable legacy sections the text loop fills. -/
structure LegacySections where
  summaryPoints : List String
  actionItemsOrNextSteps : List ActionItem
  openQuestions : List String
  deriving DecidableEq

/-- The `ActionItem` the legacy loop and fallback build from a bare
string. -/
def toFallbackActionItem (action : String) : ActionItem :=
  { task := action, owner := "TBD", priority := .medium,
    successCriteria := some "Completion of task" }

/-- One iteration of the legacy text-parsing loop: headers switch
`currentSection`, bullets append to the current section. -/
def legacyStep (st : Option SectionKey × LegacySections) (line : String) :
    Option SectionKey × LegacySections :=
  match sectionOfHeader line with
  | some k => (some k, st.2)
  | none =>
    match st.1 with
    | none => st
    | some k =>
      match bulletContent line with
      | some bullet =>
        if bullet != "" then
          match k with
          | .summaryPoints =>
            (st.1, { st.2 with summaryPoints := st.2.summaryPoints ++ [bullet] })
          | .actionItemsOrNextSteps =>
            (st.1, { st.2 with actionItemsOrNextSteps :=
              st.2.actionItemsOrNextSteps ++ [toFallbackActionItem bullet] })
          | .openQuestions =>
            (st.1, { st.2 with openQuestions := st.2.openQuestions ++ [bullet] })
        else st
      | none => st

/-- The legacy text-parsing loop over the trimmed non-empty lines. -/
def legacyParse (summaryText : String) : LegacySections :=
  ((splitLinesTrimmed summaryText).foldl legacyStep
    (none, ⟨[], [], []⟩)).2

/-- The legacy branch of `parseStructuredSummary`: text loop, then the
per-section heuristic fallbacks for the sections that stayed empty. -/
def legacyFallback (summaryText originalInput : String) : ParsedSections :=
  let sections := legacyParse summaryText
  { summaryPoints :=
      if sections.summaryPoints.isEmpty then
        (extractKeyPoints originalInput).take 5
      else sections.summaryPoints,
    actionItemsOrNextSteps :=
      if sections.actionItemsOrNextSteps.isEmpty then
        ((extractActionItems originalInput).map toFallbackActionItem).take 5
      else sections.actionItemsOrNextSteps,
    openQuestions :=
      if sections.openQuestions.isEmpty then
        (generateProbingQuestions originalInput).take 3
      else sections.openQuestions,
    sprintReviewSections := none,
    productDecisionSections := none,
    riskAssessment := [],
    followUpReminders := [],
    meetingQuality := none }

/-- `parseStructuredSummary` from `src/lib/ai.ts`. -/
def parseStructuredSummary (parseJson : String → Option RawParsed)
    (summaryText originalInput : String) : ParsedSections :=
  match extractJsonCandidate summaryText with
  | some candidate =>
    match parseJson candidate with
    | some parsed =>
      { summaryPoints := parsed.summaryPoints.getD [],
        actionItemsOrNextSteps := parsed.actionItemsOrNextSteps.getD [],
        openQuestions := parsed.openQuestions.getD [],
        sprintReviewSections := parsed.sprintReviewSections,
        productDecisionSections := parsed.productDecisionSections,
        riskAssessment := parsed.riskAssessment.getD [],
        followUpReminders := parsed.followUpReminders.getD [],
        meetingQuality := parsed.meetingQuality }
    | none => legacyFallback summaryText originalInput
  | none => legacyFallback summaryText originalInput

/-! ### Demo mode and `summarizeNotes` -/

/-- `detectMeetingType` from `src/lib/ai.ts`. -/
def detectMeetingType (input : String) : MeetingType :=
  let lowerText := lowerStr input
  if strContains lowerText "sprint" || strContains lowerText "planning" ||
     strContains lowerText "review" || strContains lowerText "progress" ||
     strContains lowerText "update" || strContains lowerText "milestone" ||
     strContains lowerText "deliverable" || strContains lowerText "roadmap" then
    .sprintReview
  else if strContains lowerText "decision" || strContains lowerText "prioritization" ||
     strContains lowerText "feature" || strContains lowerText "technical" ||
     strContains lowerText "architecture" || strContains lowerText "strategy" ||
     strContains lowerText "implementation" || strContains lowerText "rationale" then
    .productDecision
  else .sprintReview

def demoOwners : List String :=
  ["John Smith", "Sarah Johnson", "Mike Chen", "Alex Rivera"]

def demoDeadlines : List String :=
  ["Next Friday", "End of week", "Monday", "By next meeting"]

/-- The element built by the `legacyActions.slice(0, 4).map((action,
index) => ...)` of `generateDemoOutput`. -/
def demoActionItem (i : Nat) (action : String) : ActionItem :=
  { task := action,
    owner := (demoOwners.get? i).getD "TBD",
    deadline := some ((demoDeadlines.get? i).getD "TBD"),
    priority :=
      match i % 3 with
      | 0 => .high
      | 1 => .medium
      | _ => .low,
    successCriteria := some "Task completion and stakeholder approval" }

def demoSprintReviewSections : SprintReviewSections :=
  { deliverablesCompleted :=
      ["User authentication feature shipped", "Mobile app performance improved",
       "Bug fixes for payment flow"],
    sprintMetrics :=
      [{ name := "Velocity", value := .str "23 story points", trend := some .up,
         description := some "Story points completed this sprint" },
       { name := "Burndown", value := .str "On track", trend := some .stable,
         description := some "Sprint progress vs planned" }],
    blockersResolved :=
      ["Database connection timeout fixed", "Third-party API integration completed"],
    upcomingRoadmapItems :=
      ["User dashboard redesign", "Advanced analytics features",
       "Mobile app optimization"],
    stakeholderUpdates :=
      ["Executive summary prepared", "Customer communication drafted"] }

def demoProductDecisionSections : ProductDecisionSections :=
  { decisionsMade :=
      [{ decision := "Implement microservices architecture",
         rationale := "Better scalability and maintainability", impact := .high,
         owner := some "Tech Lead", deadline := some "Q2 2024" },
       { decision := "Use React for frontend",
         rationale := "Team expertise and ecosystem support", impact := .medium,
         owner := some "Frontend Team", deadline := some "Next sprint" }],
    strategicRationale :=
      ["Improve system scalability for future growth",
       "Reduce technical debt and maintenance costs"],
    technicalConsiderations :=
      ["Container orchestration with Kubernetes",
       "API gateway for service communication"],
    successCriteria :=
      ["50% reduction in deployment time", "99.9% uptime target",
       "Improved developer productivity"],
    resourceRequirements :=
      [{ type := .team, description := "2 additional backend developers",
         quantity := some "2", timeline := some "Q1 2024",
         owner := some "Engineering Manager" },
       { type := .budget, description := "Infrastructure costs",
         quantity := some "$10k/month", timeline := some "Ongoing",
         owner := some "Finance Team" }] }

def demoRiskAssessment : List RiskItem :=
  [{ risk := "Payment gateway issues may impact user experience",
     impact := .high, probability := .medium,
     mitigation := "Implement monitoring and fallback payment methods",
     owner := some "Engineering Team" },
   { risk := "Customer confusion about cashback policy",
     impact := .medium, probability := .high,
     mitigation := "Update app UI to clearly display cashback terms",
     owner := some "Product Team" }]

def demoFollowUpReminders : List FollowUpReminder :=
  [{ action := "Coordinate with payment gateway provider",
     dueDate := "2024-01-15", owner := "John Smith", type := .followUp },
   { action := "Review cashback policy communication",
     dueDate := "2024-01-12", owner := "Sarah Johnson", type := .review }]

def demoMeetingQuality : MeetingQualityMetrics :=
  { overallScore := 7,
    areas := { preparation := 6, participation := 8, decisionMaking := 7,
               actionClarity := 6, followThrough := 8 },
    recommendations :=
      ["Include more specific deadlines for action items",
       "Document decision rationale more clearly",
       "Set up regular check-ins for follow-up items"] }

/-- `generateDemoOutput` from `src/lib/ai.ts` (the body of its `try`; the
`setTimeout` delay is a real-time effect outside the model and the `catch`
branch is unreachable in this pure translation). -/
def generateDemoOutput (input : String) (meetingType : Option MeetingType) :
    SummaryOutput :=
  let detectedMeetingType := meetingType.getD (detectMeetingType input)
  let summaryPoints := (extractKeyPoints input).take 4
  let legacyActions := extractActionItems input
  let openQuestions := generateProbingQuestions input
  let actionItemsOrNextSteps :=
    (legacyActions.take 4).enum.map (fun p => demoActionItem p.1 p.2)
  { summaryPoints :=
      if !summaryPoints.isEmpty then summaryPoints
      else ["Key project updates discussed", "Current blockers reviewed",
            "Next phase priorities decided"],
    actionItemsOrNextSteps := actionItemsOrNextSteps,
    openQuestions :=
      if !openQuestions.isEmpty then openQuestions
      else ["What is the timeline for resolving payment issues?",
            "Who will communicate the cashback policy changes?"],
    meetingType := detectedMeetingType,
    sprintReviewSections :=
      if detectedMeetingType = .sprintReview then some demoSprintReviewSections
      else none,
    productDecisionSections :=
      if detectedMeetingType = .productDecision then some demoProductDecisionSections
      else none,
    riskAssessment := some demoRiskAssessment,
    followUpReminders := some demoFollowUpReminders,
    meetingQuality := some demoMeetingQuality }

/-- The environment flags `summarizeNotes` reads. -/
structure EnvConfig where
  demoModeFlag : Bool
  anthropicApiKey : Option String
  deriving DecidableEq

/-- `shouldUseDemoMode` from `src/lib/ai.ts`. -/
def shouldUseDemoMode (cfg : EnvConfig) : Bool :=
  if cfg.demoModeFlag then true
  else if cfg.anthropicApiKey.isNone then true
  else false

/-- `getReadableErrorMessage` from `src/lib/ai.ts`. -/
def getReadableErrorMessage (message : String) : String :=
  if strContains (lowerStr message) "credit balance" then
    "Anthropic account balance is low. Please add credits and try again."
  else if strContains (lowerStr message) "api key" then
    "Anthropic API key is invalid or missing. Verify your credentials."
  else if message = "" then
    "Unable to generate a summary at this time. Please try again later."
  else message

/-- `summarizeNotes` from `src/lib/ai.ts`. The remote call is the
`llmResult` argument (`Except.error` = a throw inside `fetchClaudeSummary`,
`Except.ok` = the text content of the model response); `parseJson` stands
for the jsonrepair + `JSON.parse` library step. The second component
records whether the remote LLM HTTP API was contacted on this run. -/
def summarizeNotes (cfg : EnvConfig) (llmResult : Except String String)
    (parseJson : String → Option RawParsed) (input : String)
    (selectedMeetingType : MeetingType) : Except String SummaryOutput × Bool :=
  if shouldUseDemoMode cfg then
    (Except.ok (generateDemoOutput input (some selectedMeetingType)), false)
  else
    match llmResult with
    | Except.ok summaryText =>
      let parsedData := parseStructuredSummary parseJson summaryText input
      (Except.ok
        { summaryPoints := parsedData.summaryPoints,
          actionItemsOrNextSteps := parsedData.actionItemsOrNextSteps,
          openQuestions := parsedData.openQuestions,
          meetingType := selectedMeetingType,
          sprintReviewSections := parsedData.sprintReviewSections,
          productDecisionSections := parsedData.productDecisionSections,
          riskAssessment := some parsedData.riskAssessment,
          followUpReminders := some parsedData.followUpReminders,
          meetingQuality := parsedData.meetingQuality }, true)
    | Except.error e => (Except.error (getReadableErrorMessage e), true)

/-! ### Concrete instances used by witnesses and counterexamples -/

/-- A parse step that always throws (e.g. jsonrepair failing on the
candidate). -/
def noneParse : String → Option RawParsed := fun _ => none

/-- A minimal JSON text whose brace-regex match succeeds. -/
def jsonishText : String := String.mk [openBrace, closeBrace]

/-- A concrete parsed object with the three core fields non-empty. -/
def rawWitness : RawParsed :=
  { summaryPoints := some ["Velocity improved"],
    actionItemsOrNextSteps :=
      some [{ task := "Ship the fix", owner := "Amy", deadline := some "Friday",
              priority := .high, successCriteria := some "Deployed" }],
    openQuestions := some ["Who owns the rollout?"],
    riskAssessment := some [],
    followUpReminders := some [] }

/-- A parse step that always succeeds with `rawWitness`. -/
def parseJsonWitness : String → Option RawParsed := fun _ => some rawWitness

/-! ### Persistence layer (`saveNote` / `keepLast10Meetings` / `getNotes`)

The database is modelled as the rows of the `meetings` and
`meeting_outputs` tables. The `select ... order('created_at', descending)`
result is the `data` argument: the theorems assume it is a permutation of
the stored rows sorted by `created_at` descending, which is what the
database returns. -/

/-- A row of the `meetings` table (`id`, `created_at`; the payload columns
play no role in retention). -/
structure MeetingRow where
  id : Nat
  created_at : Int
  deriving DecidableEq

/-- A row of the `meeting_outputs` table (`id` and the `meeting_id`
foreign key). -/
structure MeetingOutputRow where
  id : Nat
  meeting_id : Nat
  deriving DecidableEq

structure Store where
  meetings : List MeetingRow
  meeting_outputs : List MeetingOutputRow
  deriving DecidableEq

/-- `keepLast10Meetings`: fetch all meetings ordered by `created_at`
descending (`data`); when more than 10 exist, delete the rows beyond the
first 10 — their `meeting_outputs` first (foreign key), then the meetings
themselves (`delete().in(...)`). -/
def keepLast10Meetings (s : Store) (data : List MeetingRow) : Store :=
  if data.length > 10 then
    let meetingsToDelete := data.drop 10
    let idsToDelete := meetingsToDelete.map (fun m => m.id)
    { meetings := s.meetings.filter (fun m => !(idsToDelete.contains m.id)),
      meeting_outputs :=
        s.meeting_outputs.filter (fun o => !(idsToDelete.contains o.meeting_id)) }
  else s

/-- The insert performed by the save-note API route: one `meetings` row and
one associated `meeting_outputs` row. -/
def insertMeeting (s : Store) (m : MeetingRow) (o : MeetingOutputRow) : Store :=
  { meetings := s.meetings ++ [m], meeting_outputs := s.meeting_outputs ++ [o] }

/-- `saveNote`: persist the new meeting (through the save-note route), then
run the retention cleanup. `data` is the ordered fetch `keepLast10Meetings`
performs on the post-insert store. -/
def saveNote (s : Store) (m : MeetingRow) (o : MeetingOutputRow)
    (data : List MeetingRow) : Store :=
  keepLast10Meetings (insertMeeting s m o) data

/-- The `meeting_outputs (...)` join of the `getNotes` select. -/
def meetingOutputsFor (s : Store) (mid : Nat) : List MeetingOutputRow :=
  s.meeting_outputs.filter (fun o => o.meeting_id == mid)

/-- `getNotes`: meetings ordered by `created_at` descending, `limit(10)`,
each with its joined outputs. -/
def getNotes (s : Store) (data : List MeetingRow) :
    List (MeetingRow × List MeetingOutputRow) :=
  (data.take 10).map (fun m => (m, meetingOutputsFor s m.id))

/-- The fetched rows are sorted by `created_at` descending. -/
def SortedByCreatedDesc (l : List MeetingRow) : Prop :=
  l.Pairwise (fun a b => b.created_at ≤ a.created_at)

/-- A twelve-meeting store (newest first), for the C2 witness. -/
def storeWitness : Store :=
  { meetings :=
      [⟨1, 12⟩, ⟨2, 11⟩, ⟨3, 10⟩, ⟨4, 9⟩, ⟨5, 8⟩, ⟨6, 7⟩, ⟨7, 6⟩, ⟨8, 5⟩,
       ⟨9, 4⟩, ⟨10, 3⟩, ⟨11, 2⟩],
    meeting_outputs := [⟨100, 1⟩, ⟨101, 11⟩, ⟨102, 12⟩] }

/-- The descending-`created_at` fetch of the post-insert witness store. -/
def sortedDataWitness : List MeetingRow :=
  [⟨12, 13⟩, ⟨1, 12⟩, ⟨2, 11⟩, ⟨3, 10⟩, ⟨4, 9⟩, ⟨5, 8⟩, ⟨6, 7⟩, ⟨7, 6⟩,
   ⟨8, 5⟩, ⟨9, 4⟩, ⟨10, 3⟩, ⟨11, 2⟩]

end Prodai

namespace Prodai

/-! ### Theorems -/

/-- C1: a POST body whose `input` is a string longer than 1000 characters is
answered with HTTP 400 and the message
`Meeting notes cannot exceed 1000 characters.`, and the route never reaches
`summarizeNotes` for it. -/
theorem post_rejects_overlong_input (s : String) (mt : Option MeetingType)
    (h : 1000 < s.length) :
    POST (.str s) mt =
      .clientError 400 "Meeting notes cannot exceed 1000 characters." ∧
    ∀ t m, POST (.str s) mt ≠ .summarize t m := by
  have hne : ¬ s = "" := by
    intro he
    subst he
    simp [String.length] at h
  have h10 : ¬ s.length < 10 := by omega
  refine ⟨?_, ?_⟩
  · simp [POST, hne, h10, h]
  · intro t m
    simp [POST, hne, h10, h]

set_option maxRecDepth 8000 in
theorem post_rejects_overlong_input_witness :
    POST (.str longInput) none =
      .clientError 400 "Meeting notes cannot exceed 1000 characters." ∧
    ∀ t m, POST (.str longInput) none ≠ .summarize t m :=
  post_rejects_overlong_input longInput none (by decide)

/-- C8: a POST body whose `input` is missing, not a string, or a string of
fewer than 10 characters is answered with HTTP 400 and a descriptive error
message, and the route never reaches `summarizeNotes` for it. -/
theorem post_rejects_short_or_invalid_input (inp : InputField)
    (mt : Option MeetingType)
    (h : inp = .missing ∨ inp = .nonString ∨
      ∃ s, inp = .str s ∧ s.length < 10) :
    (∃ msg, POST inp mt = .clientError 400 msg ∧ msg ≠ "") ∧
    ∀ t m, POST inp mt ≠ .summarize t m := by
  rcases h with h | h | ⟨s, hs, hlen⟩
  · subst h
    exact ⟨⟨"Invalid input. Please provide meeting notes as a string.", rfl,
      by decide⟩, fun t m => by simp [POST]⟩
  · subst h
    exact ⟨⟨"Invalid input. Please provide meeting notes as a string.", rfl,
      by decide⟩, fun t m => by simp [POST]⟩
  · subst hs
    by_cases he : s = ""
    · subst he
      exact ⟨⟨"Invalid input. Please provide meeting notes as a string.",
        by simp [POST], by decide⟩, fun t m => by simp [POST]⟩
    · refine ⟨⟨"Meeting notes must be at least 10 characters long.", ?_,
        by decide⟩, fun t m => ?_⟩
      · simp [POST, he, hlen]
      · simp [POST, he, hlen]

theorem post_rejects_short_or_invalid_input_witness :
    (∃ msg, POST (.str "short") none = .clientError 400 msg ∧ msg ≠ "") ∧
    ∀ t m, POST (.str "short") none ≠ .summarize t m :=
  post_rejects_short_or_invalid_input (.str "short") none
    (Or.inr (Or.inr ⟨"short", rfl, by decide⟩))

/-- C5: for every input string, `extractActionItems` returns at most 5
strings and `generateProbingQuestions` returns at most 3. -/
theorem heuristic_extractors_bounded (text : String) :
    (extractActionItems text).length ≤ 5 ∧
    (generateProbingQuestions text).length ≤ 3 := by
  constructor
  · simp only [extractActionItems]
    exact List.length_take_le 5 ((splitLinesTrimmed text).foldl processActionLine [])
  · simp only [generateProbingQuestions]
    exact List.length_take_le 3 _

/-- C9: `generateProbingQuestions` always returns between 1 and 3
questions, and when none of the five keyword-gap checks fires it returns
exactly the two generic questions. -/
theorem probing_questions_nonempty (text : String) :
    1 ≤ (generateProbingQuestions text).length ∧
    (generateProbingQuestions text).length ≤ 3 ∧
    (gapQuestions text = [] →
      generateProbingQuestions text =
        ["What are the next steps after this meeting?",
         "Who will be responsible for following up?"]) := by
  refine ⟨?_, ?_, ?_⟩
  · simp only [generateProbingQuestions]
    by_cases hq : (gapQuestions text).isEmpty
    · simp [hq]
    · have hne : gapQuestions text ≠ [] := by
        simpa [List.isEmpty_iff] using hq
      simp only [hq, if_false, Bool.false_eq_true]
      rw [List.length_take]
      have : 0 < (gapQuestions text).length := List.length_pos.mpr hne
      omega
  · simp only [generateProbingQuestions]
    exact List.length_take_le 3 _
  · intro hgap
    simp [generateProbingQuestions, hgap]

theorem probing_questions_nonempty_witness :
    generateProbingQuestions probingAllCovered =
      ["What are the next steps after this meeting?",
       "Who will be responsible for following up?"] :=
  (probing_questions_nonempty probingAllCovered).2.2 (by decide)

/-- C3: when the demo-mode flag is set or no API key is configured,
`summarizeNotes` resolves to the demo output built from the heuristic
extractors applied to the input, and the remote LLM HTTP API is never
contacted (the contact flag of the run is `false`). -/
theorem summarize_demo_mode (cfg : EnvConfig) (llm : Except String String)
    (parseJson : String → Option RawParsed) (input : String) (mt : MeetingType)
    (h : cfg.demoModeFlag = true ∨ cfg.anthropicApiKey = none) :
    summarizeNotes cfg llm parseJson input mt =
      (Except.ok (generateDemoOutput input (some mt)), false) ∧
    ((extractKeyPoints input).take 4 ≠ [] →
      (generateDemoOutput input (some mt)).summaryPoints =
        (extractKeyPoints input).take 4) ∧
    (generateDemoOutput input (some mt)).actionItemsOrNextSteps =
      ((extractActionItems input).take 4).enum.map (fun p => demoActionItem p.1 p.2) ∧
    (generateProbingQuestions input ≠ [] →
      (generateDemoOutput input (some mt)).openQuestions =
        generateProbingQuestions input) := by
  have hdemo : shouldUseDemoMode cfg = true := by
    rcases h with h | h
    · simp [shouldUseDemoMode, h]
    · simp [shouldUseDemoMode, h]
  refine ⟨?_, ?_, ?_, ?_⟩
  · simp [summarizeNotes, hdemo]
  · intro hne
    simp only [generateDemoOutput]
    rw [if_pos]
    simpa using hne
  · simp [generateDemoOutput]
  · intro hne
    simp only [generateDemoOutput]
    rw [if_pos]
    simpa using hne

theorem summarize_demo_mode_witness :
    summarizeNotes ⟨true, none⟩ (Except.error "boom") noneParse
        "Team agreed the goal" .sprintReview =
      (Except.ok (generateDemoOutput "Team agreed the goal" (some .sprintReview)),
        false) :=
  (summarize_demo_mode ⟨true, none⟩ (Except.error "boom") noneParse
    "Team agreed the goal" .sprintReview (Or.inl rfl)).1

/-- C4: when no JSON object can be extracted from the model response (or
the extracted candidate fails to parse) and the legacy text loop yields no
content, `parseStructuredSummary` fills every core section from the
heuristics applied to the original input: key points capped at 5, action
items converted with owner `TBD` and priority `medium` capped at 5, and
probing questions capped at 3. -/
theorem parse_fallback_uses_heuristics (parseJson : String → Option RawParsed)
    (summaryText originalInput : String)
    (hjson : ∀ c, extractJsonCandidate summaryText = some c → parseJson c = none)
    (hleg : legacyParse summaryText = ⟨[], [], []⟩) :
    parseStructuredSummary parseJson summaryText originalInput =
      { summaryPoints := (extractKeyPoints originalInput).take 5,
        actionItemsOrNextSteps :=
          ((extractActionItems originalInput).map toFallbackActionItem).take 5,
        openQuestions := (generateProbingQuestions originalInput).take 3,
        sprintReviewSections := none,
        productDecisionSections := none,
        riskAssessment := [],
        followUpReminders := [],
        meetingQuality := none } ∧
    (parseStructuredSummary parseJson summaryText originalInput).summaryPoints.length ≤ 5 ∧
    (parseStructuredSummary parseJson summaryText originalInput).actionItemsOrNextSteps.length ≤ 5 ∧
    (parseStructuredSummary parseJson summaryText originalInput).openQuestions.length ≤ 3 ∧
    ∀ a ∈ (parseStructuredSummary parseJson summaryText originalInput).actionItemsOrNextSteps,
      a.owner = "TBD" ∧ a.priority = .medium := by
  have hmain : parseStructuredSummary parseJson summaryText originalInput =
      { summaryPoints := (extractKeyPoints originalInput).take 5,
        actionItemsOrNextSteps :=
          ((extractActionItems originalInput).map toFallbackActionItem).take 5,
        openQuestions := (generateProbingQuestions originalInput).take 3,
        sprintReviewSections := none,
        productDecisionSections := none,
        riskAssessment := [],
        followUpReminders := [],
        meetingQuality := none } := by
    have hfb : legacyFallback summaryText originalInput =
        { summaryPoints := (extractKeyPoints originalInput).take 5,
          actionItemsOrNextSteps :=
            ((extractActionItems originalInput).map toFallbackActionItem).take 5,
          openQuestions := (generateProbingQuestions originalInput).take 3,
          sprintReviewSections := none,
          productDecisionSections := none,
          riskAssessment := [],
          followUpReminders := [],
          meetingQuality := none } := by
      simp [legacyFallback, hleg]
    cases hc : extractJsonCandidate summaryText with
    | none => simpa [parseStructuredSummary, hc] using hfb
    | some c =>
      have := hjson c hc
      simpa [parseStructuredSummary, hc, this] using hfb
  refine ⟨hmain, ?_, ?_, ?_, ?_⟩
  · rw [hmain]
    exact List.length_take_le 5 _
  · rw [hmain]
    exact List.length_take_le 5 _
  · rw [hmain]
    exact List.length_take_le 3 _
  · rw [hmain]
    intro a ha
    have ha' : a ∈ (extractActionItems originalInput).map toFallbackActionItem :=
      List.mem_of_mem_take ha
    rcases List.mem_map.mp ha' with ⟨b, _, hb⟩
    subst hb
    exact ⟨rfl, rfl⟩

theorem parse_fallback_uses_heuristics_witness :
    parseStructuredSummary noneParse "no structured output"
        "John will fix the login bug" =
      { summaryPoints :=
          (extractKeyPoints "John will fix the login bug").take 5,
        actionItemsOrNextSteps :=
          ((extractActionItems "John will fix the login bug").map
            toFallbackActionItem).take 5,
        openQuestions :=
          (generateProbingQuestions "John will fix the login bug").take 3,
        sprintReviewSections := none,
        productDecisionSections := none,
        riskAssessment := [],
        followUpReminders := [],
        meetingQuality := none } :=
  (parse_fallback_uses_heuristics noneParse "no structured output"
    "John will fix the login bug"
    (fun c _ => rfl)
    (by decide)).1

/-- C6: when the LLM call succeeds and its response contains a JSON object
whose `summaryPoints`, `actionItemsOrNextSteps` and `openQuestions` fields
are non-empty, the returned report consists exactly of those parsed fields,
and the heuristic extractors contribute nothing: the result does not depend
on the original input at all. -/
theorem summarize_llm_success_uses_parsed_fields (key : String)
    (parseJson : String → Option RawParsed) (text input : String)
    (mt : MeetingType) (candidate : String) (raw : RawParsed)
    (sp : List String) (items : List ActionItem) (oq : List String)
    (hc : extractJsonCandidate text = some candidate)
    (hp : parseJson candidate = some raw)
    (hsp : raw.summaryPoints = some sp) (_hspne : sp ≠ [])
    (hai : raw.actionItemsOrNextSteps = some items) (_haine : items ≠ [])
    (hoq : raw.openQuestions = some oq) (_hoqne : oq ≠ []) :
    summarizeNotes ⟨false, some key⟩ (Except.ok text) parseJson input mt =
      (Except.ok
        { summaryPoints := sp,
          actionItemsOrNextSteps := items,
          openQuestions := oq,
          meetingType := mt,
          sprintReviewSections := raw.sprintReviewSections,
          productDecisionSections := raw.productDecisionSections,
          riskAssessment := some (raw.riskAssessment.getD []),
          followUpReminders := some (raw.followUpReminders.getD []),
          meetingQuality := raw.meetingQuality }, true) ∧
    ∀ otherInput, summarizeNotes ⟨false, some key⟩ (Except.ok text) parseJson
        otherInput mt =
      summarizeNotes ⟨false, some key⟩ (Except.ok text) parseJson input mt := by
  have hout : ∀ anyInput : String,
      summarizeNotes ⟨false, some key⟩ (Except.ok text) parseJson anyInput mt =
      (Except.ok
        { summaryPoints := sp,
          actionItemsOrNextSteps := items,
          openQuestions := oq,
          meetingType := mt,
          sprintReviewSections := raw.sprintReviewSections,
          productDecisionSections := raw.productDecisionSections,
          riskAssessment := some (raw.riskAssessment.getD []),
          followUpReminders := some (raw.followUpReminders.getD []),
          meetingQuality := raw.meetingQuality }, true) := by
    intro anyInput
    simp [summarizeNotes, shouldUseDemoMode, parseStructuredSummary, hc, hp,
      hsp, hai, hoq]
  exact ⟨hout input, fun otherInput => (hout otherInput).trans (hout input).symm⟩

theorem summarize_llm_success_uses_parsed_fields_witness :
    summarizeNotes ⟨false, some "sk-key"⟩ (Except.ok jsonishText)
        parseJsonWitness "raw meeting notes" .productDecision =
      (Except.ok
        { summaryPoints := ["Velocity improved"],
          actionItemsOrNextSteps :=
            [{ task := "Ship the fix", owner := "Amy", deadline := some "Friday",
               priority := .high, successCriteria := some "Deployed" }],
          openQuestions := ["Who owns the rollout?"],
          meetingType := .productDecision,
          sprintReviewSections := none,
          productDecisionSections := none,
          riskAssessment := some [],
          followUpReminders := some [],
          meetingQuality := none }, true) :=
  (summarize_llm_success_uses_parsed_fields "sk-key" parseJsonWitness
    jsonishText "raw meeting notes" .productDecision jsonishText rawWitness
    ["Velocity improved"]
    [{ task := "Ship the fix", owner := "Amy", deadline := some "Friday",
       priority := .high, successCriteria := some "Deployed" }]
    ["Who owns the rollout?"]
    (by decide) rfl rfl (by decide) rfl (by decide) rfl (by decide)).1

/-! Helper lemmas about the action items each code path constructs. -/

theorem demoOwner_getD_ne (i : Nat) : (demoOwners.get? i).getD "TBD" ≠ "" := by
  match i with
  | 0 => decide
  | 1 => decide
  | 2 => decide
  | 3 => decide
  | n + 4 =>
    have h : demoOwners.get? (n + 4) = none := rfl
    rw [h]
    decide

theorem generateDemoOutput_items (input : String) (mt : Option MeetingType) :
    ∀ a ∈ (generateDemoOutput input mt).actionItemsOrNextSteps,
      a.owner ≠ "" ∧ a.deadline ≠ none := by
  intro a ha
  simp only [generateDemoOutput] at ha
  rcases List.mem_map.mp ha with ⟨⟨i, act⟩, _, hb⟩
  subst hb
  refine ⟨?_, ?_⟩
  · exact demoOwner_getD_ne i
  · simp [demoActionItem]

theorem legacyStep_items (st : Option SectionKey × LegacySections) (line : String) :
    ∀ a ∈ (legacyStep st line).2.actionItemsOrNextSteps,
      a ∈ st.2.actionItemsOrNextSteps ∨ ∃ b, a = toFallbackActionItem b := by
  intro a ha
  unfold legacyStep at ha
  split at ha
  · exact Or.inl ha
  · split at ha
    · exact Or.inl ha
    · split at ha
      · split at ha
        · split at ha
          · exact Or.inl ha
          · have ha' : a ∈ st.2.actionItemsOrNextSteps ++
                [toFallbackActionItem _] := ha
            rcases List.mem_append.mp ha' with h | h
            · exact Or.inl h
            · exact Or.inr ⟨_, List.mem_singleton.mp h⟩
          · exact Or.inl ha
        · exact Or.inl ha
      · exact Or.inl ha

theorem legacyFoldl_items (lines : List String)
    (st : Option SectionKey × LegacySections) :
    ∀ a ∈ (lines.foldl legacyStep st).2.actionItemsOrNextSteps,
      a ∈ st.2.actionItemsOrNextSteps ∨ ∃ b, a = toFallbackActionItem b := by
  induction lines generalizing st with
  | nil => exact fun a ha => Or.inl ha
  | cons l ls ih =>
    intro a ha
    rcases ih (legacyStep st l) a ha with h | h
    · exact legacyStep_items st l a h
    · exact Or.inr h

theorem legacyFallback_items (text input : String) :
    ∀ a ∈ (legacyFallback text input).actionItemsOrNextSteps,
      a.owner = "TBD" ∧ a.deadline = none ∧ a.priority = .medium := by
  intro a ha
  have hform : ∃ b, a = toFallbackActionItem b := by
    simp only [legacyFallback] at ha
    split at ha
    · have ha' := List.mem_of_mem_take ha
      rcases List.mem_map.mp ha' with ⟨b, _, hb⟩
      exact ⟨b, hb.symm⟩
    · rcases legacyFoldl_items _ _ a ha with h | h
      · simp at h
      · exact h
  rcases hform with ⟨b, hb⟩
  subst hb
  exact ⟨rfl, rfl, rfl⟩

/-- C7 counterexample: a non-demo run whose model response has no JSON and
no recognized sections returns a report whose action item has no deadline
at all (not even `TBD`) and which carries no quality scores, against the
claim that every report has action items with deadlines and quality
scores. -/
theorem summarize_report_fields_counterexample :
    (summarizeNotes ⟨false, some "sk-key"⟩ (Except.ok "Summary") noneParse
        "John will fix the bug" .sprintReview).1 =
      Except.ok
        { summaryPoints := [],
          actionItemsOrNextSteps := [toFallbackActionItem "John → fix the bug"],
          openQuestions :=
            ["What were the specific goals for this meeting?",
             "What are the deadlines for the action items?",
             "Are there any budget considerations for these decisions?"],
          meetingType := .sprintReview,
          sprintReviewSections := none,
          productDecisionSections := none,
          riskAssessment := some [],
          followUpReminders := some [],
          meetingQuality := none } ∧
    (toFallbackActionItem "John → fix the bug").deadline = none ∧
    (toFallbackActionItem "John → fix the bug").owner = "TBD" := by
  refine ⟨by rfl, rfl, rfl⟩

/-- C7 (amended): every successful report carries the three core sections
and the selected meeting type; the demo path always carries risk items,
follow-up reminders and quality scores, and its action items all have an
owner and a deadline; but on the LLM text-parse fallback path quality
scores are absent and every action item has owner `TBD` and no deadline. -/
theorem summarize_report_structure (cfg : EnvConfig)
    (llm : Except String String) (parseJson : String → Option RawParsed)
    (input : String) (mt : MeetingType) (out : SummaryOutput)
    (hout : (summarizeNotes cfg llm parseJson input mt).1 = Except.ok out) :
    out.meetingType = mt ∧
    (shouldUseDemoMode cfg = true →
      out.riskAssessment = some demoRiskAssessment ∧
      out.followUpReminders = some demoFollowUpReminders ∧
      out.meetingQuality = some demoMeetingQuality ∧
      ∀ a ∈ out.actionItemsOrNextSteps, a.owner ≠ "" ∧ a.deadline ≠ none) ∧
    (∀ text, shouldUseDemoMode cfg = false → llm = Except.ok text →
      (∀ c, extractJsonCandidate text = some c → parseJson c = none) →
      out.meetingQuality = none ∧
      ∀ a ∈ out.actionItemsOrNextSteps,
        a.owner = "TBD" ∧ a.deadline = none) := by
  cases hdemo : shouldUseDemoMode cfg with
  | true =>
    have heq : out = generateDemoOutput input (some mt) := by
      simp [summarizeNotes, hdemo] at hout
      exact hout.symm
    subst heq
    refine ⟨by simp [generateDemoOutput], ?_, ?_⟩
    · intro _
      refine ⟨by simp [generateDemoOutput], by simp [generateDemoOutput],
        by simp [generateDemoOutput], generateDemoOutput_items input (some mt)⟩
    · intro text hfalse
      exact absurd hfalse (by simp)
  | false =>
    cases llm with
    | error e => simp [summarizeNotes, hdemo] at hout
    | ok text =>
      have hGod : out =
          { summaryPoints := (parseStructuredSummary parseJson text input).summaryPoints,
            actionItemsOrNextSteps :=
              (parseStructuredSummary parseJson text input).actionItemsOrNextSteps,
            openQuestions := (parseStructuredSummary parseJson text input).openQuestions,
            meetingType := mt,
            sprintReviewSections :=
              (parseStructuredSummary parseJson text input).sprintReviewSections,
            productDecisionSections :=
              (parseStructuredSummary parseJson text input).productDecisionSections,
            riskAssessment :=
              some (parseStructuredSummary parseJson text input).riskAssessment,
            followUpReminders :=
              some (parseStructuredSummary parseJson text input).followUpReminders,
            meetingQuality :=
              (parseStructuredSummary parseJson text input).meetingQuality } := by
        simp [summarizeNotes, hdemo] at hout
        exact hout.symm
      subst hGod
      refine ⟨rfl, ?_, ?_⟩
      · intro htrue
        exact absurd htrue (by simp)
      · intro text' _ hok hjson
        have htext : text = text' := by
          injection hok
        subst htext
        have hfb : parseStructuredSummary parseJson text input =
            legacyFallback text input := by
          cases hc : extractJsonCandidate text with
          | none => simp [parseStructuredSummary, hc]
          | some c => simp [parseStructuredSummary, hc, hjson c hc]
        refine ⟨?_, ?_⟩
        · simp [hfb, legacyFallback]
        · intro a ha
          rw [hfb] at ha
          have := legacyFallback_items text input a ha
          exact ⟨this.1, this.2.1⟩

/-! Helper lemmas for the retention invariant. -/

theorem contains_nat_iff (l : List Nat) (n : Nat) : l.contains n = true ↔ n ∈ l := by
  simp [List.contains, List.elem_iff]

theorem keep_filter_perm (meetings data : List MeetingRow)
    (hperm : data.Perm meetings)
    (hnodup : (meetings.map (fun r => r.id)).Nodup)
    (_h10 : 10 < data.length) :
    (meetings.filter
      (fun r => !(((data.drop 10).map (fun x => x.id)).contains r.id))).Perm
      (data.take 10) := by
  have h1 : (meetings.filter
      (fun r => !(((data.drop 10).map (fun x => x.id)).contains r.id))).Perm
      (data.filter
        (fun r => !(((data.drop 10).map (fun x => x.id)).contains r.id))) :=
    (hperm.filter _).symm
  have hsplit : data = data.take 10 ++ data.drop 10 :=
    (List.take_append_drop 10 data).symm
  have hnd : (data.map (fun r => r.id)).Nodup :=
    ((hperm.map (fun r => r.id)).nodup_iff).mpr hnodup
  have hdisj : ∀ r ∈ data.take 10,
      r.id ∉ (data.drop 10).map (fun x => x.id) := by
    intro r hr hmem
    have hmapsplit : data.map (fun r => r.id) =
        (data.take 10).map (fun r => r.id) ++
          (data.drop 10).map (fun r => r.id) := by
      rw [← List.map_append, List.take_append_drop]
    rw [hmapsplit] at hnd
    exact (List.nodup_append.mp hnd).2.2 (List.mem_map_of_mem _ hr) hmem
  have hfilter_take : (data.take 10).filter
      (fun r => !(((data.drop 10).map (fun x => x.id)).contains r.id)) =
      data.take 10 := by
    rw [List.filter_eq_self]
    intro r hr
    simp only [Bool.not_eq_true']
    rw [← Bool.not_eq_true]
    intro hc
    exact hdisj r hr ((contains_nat_iff _ _).mp hc)
  have hfilter_drop : (data.drop 10).filter
      (fun r => !(((data.drop 10).map (fun x => x.id)).contains r.id)) = [] := by
    rw [List.filter_eq_nil_iff]
    intro r hr
    simp only [Bool.not_eq_true']
    rw [Bool.not_eq_false]
    exact (contains_nat_iff _ _).mpr (List.mem_map_of_mem _ hr)
  have h2 : data.filter
      (fun r => !(((data.drop 10).map (fun x => x.id)).contains r.id)) =
      data.take 10 := by
    rw [show data.filter
        (fun r => !(((data.drop 10).map (fun x => x.id)).contains r.id)) =
        (data.take 10).filter
          (fun r => !(((data.drop 10).map (fun x => x.id)).contains r.id)) ++
        (data.drop 10).filter
          (fun r => !(((data.drop 10).map (fun x => x.id)).contains r.id)) from by
      rw [← List.filter_append, List.take_append_drop]]
    rw [hfilter_take, hfilter_drop, List.append_nil]
  rw [h2] at h1
  exact h1

theorem keepLast10_le_case (st : Store) (data : List MeetingRow)
    (h10 : ¬ 10 < data.length) : keepLast10Meetings st data = st := by
  unfold keepLast10Meetings
  rw [if_neg h10]

theorem sorted_cross (data : List MeetingRow) (hsorted : SortedByCreatedDesc data) :
    ∀ a ∈ data.take 10, ∀ b ∈ data.drop 10, b.created_at ≤ a.created_at := by
  have hsplit : data = data.take 10 ++ data.drop 10 :=
    (List.take_append_drop 10 data).symm
  have hpw : (data.take 10 ++ data.drop 10).Pairwise
      (fun a b => b.created_at ≤ a.created_at) := by
    rw [← hsplit]
    exact hsorted
  exact (List.pairwise_append.mp hpw).2.2

/-- C2: after `saveNote` finishes its cleanup, at most 10 meetings remain;
with 10 or fewer rows nothing is deleted; with more, the survivors are
exactly the 10 most recent, the deleted rows (all at least as old as every
survivor) lose exactly their associated `meeting_outputs` rows; and
`getNotes` returns at most the 10 most recent sessions. -/
theorem save_note_retention (s : Store) (m : MeetingRow) (o : MeetingOutputRow)
    (data : List MeetingRow)
    (hperm : data.Perm (insertMeeting s m o).meetings)
    (hsorted : SortedByCreatedDesc data)
    (hnodup : ((insertMeeting s m o).meetings.map (fun r => r.id)).Nodup) :
    (saveNote s m o data).meetings.length ≤ 10 ∧
    (data.length ≤ 10 → saveNote s m o data = insertMeeting s m o) ∧
    (10 < data.length → (saveNote s m o data).meetings.Perm (data.take 10)) ∧
    (∀ x ∈ (insertMeeting s m o).meetings, x ∉ (saveNote s m o data).meetings →
      ∀ y ∈ (saveNote s m o data).meetings, x.created_at ≤ y.created_at) ∧
    (10 < data.length →
      ∀ q ∈ (insertMeeting s m o).meeting_outputs,
        (q ∈ (saveNote s m o data).meeting_outputs ↔
          q.meeting_id ∉ (data.drop 10).map (fun r => r.id))) ∧
    (getNotes (insertMeeting s m o) data).length ≤ 10 ∧
    (∀ x ∈ (insertMeeting s m o).meetings,
      x ∉ (getNotes (insertMeeting s m o) data).map Prod.fst →
      ∀ p ∈ getNotes (insertMeeting s m o) data,
        x.created_at ≤ p.1.created_at) := by
  have hsplit : data = data.take 10 ++ data.drop 10 :=
    (List.take_append_drop 10 data).symm
  have hcross := sorted_cross data hsorted
  have hfst : (getNotes (insertMeeting s m o) data).map Prod.fst = data.take 10 := by
    simp [getNotes, List.map_map, Function.comp_def]
  by_cases h10 : 10 < data.length
  · have hkeep : (saveNote s m o data).meetings.Perm (data.take 10) := by
      show ((keepLast10Meetings (insertMeeting s m o) data).meetings).Perm _
      unfold keepLast10Meetings
      rw [if_pos h10]
      exact keep_filter_perm _ data hperm hnodup h10
    refine ⟨?_, ?_, fun _ => hkeep, ?_, ?_, ?_, ?_⟩
    · rw [hkeep.length_eq]
      exact List.length_take_le 10 data
    · intro hle
      omega
    · intro x hx hnotin y hy
      have hxdata : x ∈ data := hperm.mem_iff.mpr hx
      have hxtake : x ∉ data.take 10 := fun hc => hnotin (hkeep.mem_iff.mpr hc)
      have hxdrop : x ∈ data.drop 10 := by
        rcases List.mem_append.mp (hsplit ▸ hxdata) with h | h
        · exact absurd h hxtake
        · exact h
      exact hcross y (hkeep.mem_iff.mp hy) x hxdrop
    · intro _ q hq
      show q ∈ (keepLast10Meetings (insertMeeting s m o) data).meeting_outputs ↔ _
      unfold keepLast10Meetings
      rw [if_pos h10]
      simp only [List.mem_filter]
      constructor
      · intro ⟨_, hpred⟩ hmem
        rw [Bool.not_eq_true'] at hpred
        have hc := (contains_nat_iff _ _).mpr hmem
        rw [hpred] at hc
        exact Bool.noConfusion hc
      · intro hnot
        refine ⟨hq, ?_⟩
        rw [Bool.not_eq_true']
        rw [← Bool.not_eq_true]
        intro hc
        exact hnot ((contains_nat_iff _ _).mp hc)
    · simp only [getNotes, List.length_map]
      exact List.length_take_le 10 data
    · intro x hx hnotin p hp
      have hxdata : x ∈ data := hperm.mem_iff.mpr hx
      have hxtake : x ∉ data.take 10 := by
        rw [← hfst]
        exact hnotin
      have hxdrop : x ∈ data.drop 10 := by
        rcases List.mem_append.mp (hsplit ▸ hxdata) with h | h
        · exact absurd h hxtake
        · exact h
      have hptake : p.1 ∈ data.take 10 := by
        rw [← hfst]
        exact List.mem_map_of_mem _ hp
      exact hcross p.1 hptake x hxdrop
  · have hsame : saveNote s m o data = insertMeeting s m o :=
      keepLast10_le_case (insertMeeting s m o) data h10
    refine ⟨?_, fun _ => hsame, fun hgt => absurd hgt h10, ?_, ?_, ?_, ?_⟩
    · rw [hsame, ← hperm.length_eq]
      omega
    · intro x hx hnotin y _
      rw [hsame] at hnotin
      exact absurd hx hnotin
    · intro hgt
      exact absurd hgt h10
    · simp only [getNotes, List.length_map]
      exact List.length_take_le 10 data
    · intro x hx hnotin p hp
      have hxdata : x ∈ data := hperm.mem_iff.mpr hx
      have hxtake : x ∉ data.take 10 := by
        rw [← hfst]
        exact hnotin
      have htake_all : data.take 10 = data := by
        apply List.take_of_length_le
        omega
      rw [htake_all] at hxtake
      exact absurd hxdata hxtake

theorem save_note_retention_witness :
    (saveNote storeWitness ⟨12, 13⟩ ⟨103, 12⟩ sortedDataWitness).meetings.length ≤ 10 ∧
    (sortedDataWitness.length ≤ 10 →
      saveNote storeWitness ⟨12, 13⟩ ⟨103, 12⟩ sortedDataWitness =
        insertMeeting storeWitness ⟨12, 13⟩ ⟨103, 12⟩) ∧
    (10 < sortedDataWitness.length →
      (saveNote storeWitness ⟨12, 13⟩ ⟨103, 12⟩ sortedDataWitness).meetings.Perm
        (sortedDataWitness.take 10)) ∧
    (∀ x ∈ (insertMeeting storeWitness ⟨12, 13⟩ ⟨103, 12⟩).meetings,
      x ∉ (saveNote storeWitness ⟨12, 13⟩ ⟨103, 12⟩ sortedDataWitness).meetings →
      ∀ y ∈ (saveNote storeWitness ⟨12, 13⟩ ⟨103, 12⟩ sortedDataWitness).meetings,
        x.created_at ≤ y.created_at) ∧
    (10 < sortedDataWitness.length →
      ∀ q ∈ (insertMeeting storeWitness ⟨12, 13⟩ ⟨103, 12⟩).meeting_outputs,
        (q ∈ (saveNote storeWitness ⟨12, 13⟩ ⟨103, 12⟩ sortedDataWitness).meeting_outputs ↔
          q.meeting_id ∉ (sortedDataWitness.drop 10).map (fun r => r.id))) ∧
    (getNotes (insertMeeting storeWitness ⟨12, 13⟩ ⟨103, 12⟩) sortedDataWitness).length ≤ 10 ∧
    (∀ x ∈ (insertMeeting storeWitness ⟨12, 13⟩ ⟨103, 12⟩).meetings,
      x ∉ (getNotes (insertMeeting storeWitness ⟨12, 13⟩ ⟨103, 12⟩)
            sortedDataWitness).map Prod.fst →
      ∀ p ∈ getNotes (insertMeeting storeWitness ⟨12, 13⟩ ⟨103, 12⟩) sortedDataWitness,
        x.created_at ≤ p.1.created_at) :=
  save_note_retention storeWitness ⟨12, 13⟩ ⟨103, 12⟩ sortedDataWitness
    (by decide) (by unfold SortedByCreatedDesc; decide) (by decide)

theorem summarize_report_structure_witness :
    (generateDemoOutput "notes for the witness run" (some .sprintReview)).meetingType =
      .sprintReview :=
  (summarize_report_structure ⟨true, none⟩ (Except.error "x") noneParse
    "notes for the witness run" .sprintReview
    (generateDemoOutput "notes for the witness run" (some .sprintReview)) rfl).1

end Prodai
